import Mathlib

/-!
Verification development for the random-sampling dataset-construction
pipeline in `src/random_sampling.py` of the depression-speech repository.

The python code is shallowly embedded as executable Lean definitions:

* a numpy 2-D array becomes `Mat` (dimensions plus an entry function);
* a python dict becomes an insertion-ordered association list;
* every call that can raise a python exception returns an `Option`,
  with `none` standing for the raised exception;
* each random draw of the python `random` module or of the seeded numpy
  generator is driven by an explicit stream of natural numbers, so that a
  statement about "every run" quantifies over all streams.
-/

/-- A numpy 2-D array: axis 0 is the frequency axis (`rows`), axis 1 is
the time axis (`cols`); `entry i j` is the value at row `i`, column `j`. -/
structure Mat where
  rows : Nat
  cols : Nat
  entry : Nat → Nat → Int

/-- The numpy slice `matrix[:, c : c + w]`: same rows, `w` columns taken
from column `c` onwards. -/
def Mat.cropAt (m : Mat) (c w : Nat) : Mat :=
  ⟨m.rows, w, fun i j => m.entry i (c + j)⟩

/-- A python dict mapping participant id to spectrogram matrix, embedded
as an insertion-ordered association list with no duplicate keys. -/
abbrev Dict := List (Nat × Mat)

/-- The key list of a dict. -/
def dictKeys (d : Dict) : List Nat := d.map (·.1)

/-- Python `{**norm, **dep}`: the keys of `norm` in order with values
overridden by `dep` where present, followed by the keys of `dep` that are
not in `norm`, in order. -/
def mergeDicts (norm dep : Dict) : Dict :=
  norm.map (fun p => (p.1, (List.lookup p.1 dep).getD p.2)) ++
    dep.filter (fun p => !(norm.map (·.1)).contains p.1)

/-- Python `min` over a list of widths: raises `ValueError` (here `none`)
on an empty list, otherwise returns the minimum. -/
def shortestWidth : List Nat → Option Nat
  | [] => none
  | x :: xs => some (xs.foldl min x)

/-- Embedding of `determine_num_crops(depressed_dict, normal_dict, crop_width)`:
merges the two dicts as `{**normal_dict, **depressed_dict}`, takes the
minimum time-axis width over the merged dict, and floor-divides it by
`crop_width`.  A zero `crop_width` (python `ZeroDivisionError`) or an
empty merged dict (python `ValueError` from `min`) yields `none`. -/
def determine_num_crops (depressed_dict normal_dict : Dict) (crop_width : Nat) : Option Nat :=
  if crop_width = 0 then none
  else
    match shortestWidth ((mergeDicts normal_dict depressed_dict).map (fun p => p.2.cols)) with
    | none => none
    | some s => some (s / crop_width)

/-- The minimum time-axis width over the plain union of the two class
dictionaries (the quantity named in the specification), 0 if both are
empty. -/
def unionMinWidth (depressed_dict normal_dict : Dict) : Nat :=
  match (normal_dict ++ depressed_dict).map (fun p => p.2.cols) with
  | [] => 0
  | x :: xs => xs.foldl min x

theorem lookup_eq_none_of_not_mem {β : Type} (k : Nat) (d : List (Nat × β))
    (h : k ∉ d.map (·.1)) : List.lookup k d = none := by
  induction d with
  | nil => rfl
  | cons p ps ih =>
    simp only [List.map_cons, List.mem_cons, not_or] at h
    have hb : (k == p.1) = false := beq_eq_false_iff_ne.mpr h.1
    simp only [List.lookup, hb]
    exact ih h.2

theorem mergeDicts_of_disjoint (norm dep : Dict)
    (hdisj : ∀ k, k ∈ dictKeys norm → k ∉ dictKeys dep) :
    mergeDicts norm dep = norm ++ dep := by
  unfold mergeDicts
  have h1 : norm.map (fun p => (p.1, (List.lookup p.1 dep).getD p.2)) = norm := by
    have : ∀ p ∈ norm, (p.1, (List.lookup p.1 dep).getD p.2) = p := by
      intro p hp
      have hk : p.1 ∈ dictKeys norm := List.mem_map_of_mem (·.1) hp
      rw [lookup_eq_none_of_not_mem p.1 dep (hdisj p.1 hk)]
      rfl
    calc norm.map (fun p => (p.1, (List.lookup p.1 dep).getD p.2))
        = norm.map id := List.map_congr_left this
      _ = norm := List.map_id norm
  have h2 : dep.filter (fun p => !(norm.map (·.1)).contains p.1) = dep := by
    rw [List.filter_eq_self]
    intro p hp
    have hk : p.1 ∈ dictKeys dep := List.mem_map_of_mem (·.1) hp
    have : p.1 ∉ dictKeys norm := fun hmem => hdisj p.1 hmem hk
    simpa [dictKeys, List.contains_eq_any_beq, List.any_eq_true] using this
  rw [h1, h2]

/-- C2 (amended part): for disjoint non-empty class dictionaries and a
positive crop width, `determine_num_crops` returns
`floor(min_width_over_union / crop_width)`; it never fails on such
inputs, even when the result is 0. -/
theorem determine_num_crops_eq_floor_min (depressed_dict normal_dict : Dict) (crop_width : Nat)
    (hw : 0 < crop_width) (hdep : depressed_dict ≠ []) (hnorm : normal_dict ≠ [])
    (hdisj : ∀ k, k ∈ dictKeys normal_dict → k ∉ dictKeys depressed_dict) :
    determine_num_crops depressed_dict normal_dict crop_width =
      some (unionMinWidth depressed_dict normal_dict / crop_width) := by
  unfold determine_num_crops
  rw [if_neg (Nat.pos_iff_ne_zero.mp hw)]
  rw [mergeDicts_of_disjoint normal_dict depressed_dict hdisj]
  cases hn : normal_dict with
  | nil => exact absurd hn hnorm
  | cons q qs =>
    simp only [List.cons_append, List.map_cons, shortestWidth, unionMinWidth, hn]

/-- Depressed-class matrix of the C2 counterexample: 100 time pixels,
narrower than the crop width of 125. -/
def c2DepMat : Mat := ⟨513, 100, fun _ _ => 0⟩

/-- Normal-class matrix of the C2 counterexample: 600 time pixels. -/
def c2NormMat : Mat := ⟨513, 600, fun _ _ => 0⟩

def c2Dep : Dict := [(1, c2DepMat)]

def c2Norm : Dict := [(2, c2NormMat)]

/-- C2 counterexample: with a shortest clip of 100 pixels and crop width
125, `determine_num_crops` returns 0 and does not fail, refuting the
claim that the returned value is at least 1 or the call fails. -/
theorem determine_num_crops_returns_zero_without_failing :
    determine_num_crops c2Dep c2Norm 125 = some 0 ∧
      ¬ (determine_num_crops c2Dep c2Norm 125 = none ∨
          ∀ v, determine_num_crops c2Dep c2Norm 125 = some v → 1 ≤ v) := by
  have e : determine_num_crops c2Dep c2Norm 125 = some 0 := rfl
  refine ⟨e, ?_⟩
  rintro (h | h)
  · rw [e] at h
    exact Option.noConfusion h
  · exact absurd (h 0 e) (by omega)

/-- Witness for the amended C2 theorem, on the concrete scenario of the
specification: widths 600, 500, 1000, 400 and crop width 125 give
`floor(400 / 125) = 3`. -/
theorem determine_num_crops_eq_floor_min_witness :
    (0 < 125 ∧ ([(3, Mat.mk 513 600 fun _ _ => 0), (4, Mat.mk 513 500 fun _ _ => 0)] : Dict) ≠ [] ∧
        ([(5, Mat.mk 513 1000 fun _ _ => 0), (6, Mat.mk 513 400 fun _ _ => 0)] : Dict) ≠ []) ∧
      determine_num_crops
          [(3, Mat.mk 513 600 fun _ _ => 0), (4, Mat.mk 513 500 fun _ _ => 0)]
          [(5, Mat.mk 513 1000 fun _ _ => 0), (6, Mat.mk 513 400 fun _ _ => 0)] 125 =
        some (unionMinWidth
          [(3, Mat.mk 513 600 fun _ _ => 0), (4, Mat.mk 513 500 fun _ _ => 0)]
          [(5, Mat.mk 513 1000 fun _ _ => 0), (6, Mat.mk 513 400 fun _ _ => 0)] / 125) :=
  ⟨⟨by decide, by simp, by simp⟩,
    determine_num_crops_eq_floor_min _ _ 125 (by decide) (by simp) (by simp)
      (by intro k hk hk2; simp [dictKeys] at hk hk2; omega)⟩

theorem lookup_map_override (dep : Dict) (k : Nat) (vD : Mat)
    (hdep : List.lookup k dep = some vD) :
    ∀ norm : Dict, k ∈ dictKeys norm →
      List.lookup k (norm.map (fun p => (p.1, (List.lookup p.1 dep).getD p.2))) = some vD := by
  intro norm
  induction norm with
  | nil => intro h; simp [dictKeys] at h
  | cons p ps ih =>
    intro h
    simp only [dictKeys, List.map_cons, List.mem_cons] at h
    by_cases hk : k = p.1
    · subst hk
      simp [List.lookup, hdep]
    · have hb : (k == p.1) = false := beq_eq_false_iff_ne.mpr hk
      simp only [List.map_cons, List.lookup, hb]
      exact ih (h.resolve_left hk)

/-- One run of the without-replacement selection loop of python
`random.sample`: draw `k` elements, each time picking the position given
by the next number of the stream `rs` (reduced mod the current population
size) and removing it from the population. -/
def sampleAux {α : Type} : Nat → List α → List Nat → List α
  | 0, _, _ => []
  | _ + 1, [], _ => []
  | k + 1, p :: ps, rs =>
    (p :: ps).getD (rs.headD 0 % (p :: ps).length) p ::
      sampleAux k ((p :: ps).eraseIdx (rs.headD 0 % (p :: ps).length)) rs.tail

/-- Python `random.sample(pop, k)`: raises `ValueError` (here `none`)
when `k` exceeds the population size, otherwise returns `k` elements
drawn without replacement. -/
def random_sample {α : Type} (pop : List α) (k : Nat) (rs : List Nat) : Option (List α) :=
  if pop.length < k then none else some (sampleAux k pop rs)

theorem sampleAux_length {α : Type} (k : Nat) :
    ∀ (pop : List α) (rs : List Nat), k ≤ pop.length → (sampleAux k pop rs).length = k := by
  induction k with
  | zero => intro pop rs h; rfl
  | succ k ih =>
    intro pop rs h
    cases pop with
    | nil => simp at h
    | cons p ps =>
      have hlt : rs.headD 0 % (ps.length + 1) < (p :: ps).length := by
        simp only [List.length_cons]
        exact Nat.mod_lt _ (by omega)
      have hlen : ((p :: ps).eraseIdx (rs.headD 0 % (ps.length + 1))).length = ps.length := by
        rw [List.length_eraseIdx, if_pos hlt]
        simp
      simp only [List.length_cons] at h
      simp only [sampleAux, List.length_cons]
      rw [ih ((p :: ps).eraseIdx (rs.headD 0 % (ps.length + 1))) rs.tail
        (by rw [hlen]; omega)]

theorem mem_of_mem_sampleAux {α : Type} (k : Nat) :
    ∀ (pop : List α) (rs : List Nat) (x : α), x ∈ sampleAux k pop rs → x ∈ pop := by
  induction k with
  | zero => intro pop rs x h; simp [sampleAux] at h
  | succ k ih =>
    intro pop rs x h
    cases pop with
    | nil => simpa [sampleAux] using h
    | cons p ps =>
      simp only [sampleAux, List.mem_cons] at h
      rcases h with h | h
      · subst h
        have hlt : rs.headD 0 % (p :: ps).length < (p :: ps).length := Nat.mod_lt _ (by simp)
        rw [List.getD_eq_getElem _ _ hlt]
        exact List.getElem_mem hlt
      · exact (List.eraseIdx_sublist (p :: ps) _).subset (ih _ rs.tail x h)

theorem sampleAux_nodup {α : Type} (k : Nat) :
    ∀ (pop : List α) (rs : List Nat), pop.Nodup → (sampleAux k pop rs).Nodup := by
  induction k with
  | zero => intro pop rs _; simp [sampleAux]
  | succ k ih =>
    intro pop rs hnd
    cases pop with
    | nil => simp [sampleAux]
    | cons p ps =>
      have hlt : rs.headD 0 % (p :: ps).length < (p :: ps).length := Nat.mod_lt _ (by simp)
      simp only [sampleAux, List.nodup_cons]
      refine ⟨?_, ih _ rs.tail ((List.eraseIdx_sublist (p :: ps) _).nodup hnd)⟩
      intro hmem
      have hmem2 := mem_of_mem_sampleAux k _ rs.tail _ hmem
      rw [List.getD_eq_getElem _ _ hlt] at hmem2
      rw [List.mem_eraseIdx_iff_getElem] at hmem2
      obtain ⟨j, hj, hne, heq⟩ := hmem2
      exact hne ((List.Nodup.getElem_inj_iff hnd).mp heq)

theorem eraseIdx_map {α β : Type} (f : α → β) :
    ∀ (l : List α) (i : Nat), (l.map f).eraseIdx i = (l.eraseIdx i).map f := by
  intro l
  induction l with
  | nil => intro i; rfl
  | cons a as ih =>
    intro i
    cases i with
    | zero => rfl
    | succ i => simp only [List.map_cons, List.eraseIdx_cons_succ, ih]

theorem sampleAux_map {α β : Type} (f : α → β) (k : Nat) :
    ∀ (pop : List α) (rs : List Nat),
      sampleAux k (pop.map f) rs = (sampleAux k pop rs).map f := by
  induction k with
  | zero => intro pop rs; rfl
  | succ k ih =>
    intro pop rs
    cases pop with
    | nil => rfl
    | cons p ps =>
      have hlt : rs.headD 0 % (ps.length + 1) < ps.length + 1 := Nat.mod_lt _ (by omega)
      simp only [List.map_cons, sampleAux, List.length_cons, List.length_map]
      rw [List.cons.injEq]
      refine ⟨?_, ?_⟩
      · rw [show (f p :: List.map f ps) = List.map f (p :: ps) from rfl]
        rw [List.getD_eq_getElem (List.map f (p :: ps)) (f p) (by simpa using hlt)]
        rw [List.getD_eq_getElem (p :: ps) p (by simpa using hlt)]
        rw [List.getElem_map]
      · rw [show (f p :: List.map f ps) = List.map f (p :: ps) from rfl, eraseIdx_map, ih]

/-- Embedding of `get_random_samples(matrix, n_samples, crop_width)`:
drop the leading `cols mod crop_width` columns, split the rest into
`n_splits` contiguous segments of width `crop_width`, and draw
`n_samples` of those segments without replacement.  `none` models the
`ZeroDivisionError` for a zero crop width, the `ValueError` of `np.split`
when no full segment exists, and the `ValueError` of `random.sample`
when the request exceeds the number of segments. -/
def get_random_samples (matrix : Mat) (n_samples crop_width : Nat) (rs : List Nat) :
    Option (List Mat) :=
  if crop_width = 0 then none
  else
    if (matrix.cols - matrix.cols % crop_width) / crop_width = 0 then none
    else
      random_sample
        ((List.range ((matrix.cols - matrix.cols % crop_width) / crop_width)).map
          (fun i => matrix.cropAt (matrix.cols % crop_width + i * crop_width) crop_width))
        n_samples rs

theorem trimmed_div (c w : Nat) (hw : 0 < w) : (c - c % w) / w = c / w := by
  have h := Nat.div_add_mod c w
  have h2 : c - c % w = w * (c / w) := by omega
  rw [h2, Nat.mul_div_cancel_left _ hw]

/-- C5: when the time axis is at least `crop_width` wide and at most
`n_splits` samples are requested, `get_random_samples` returns exactly
`n_samples` crops, each one a segment
`matrix[:, offset + i * crop_width : offset + (i + 1) * crop_width]` of
the non-overlapping grid that starts after the discarded prefix of
`matrix.cols mod crop_width` columns, with pairwise distinct grid indices
(so no two crops overlap and none reaches into the prefix), and each crop
has shape `(matrix.rows, crop_width)`. -/
theorem get_random_samples_spec (matrix : Mat) (n_samples crop_width : Nat) (rs : List Nat)
    (hw : 0 < crop_width) (hcw : crop_width ≤ matrix.cols)
    (hn : n_samples ≤ matrix.cols / crop_width) :
    ∃ starts : List Nat,
      get_random_samples matrix n_samples crop_width rs =
        some (starts.map (fun i =>
          matrix.cropAt (matrix.cols % crop_width + i * crop_width) crop_width)) ∧
      starts.length = n_samples ∧
      starts.Nodup ∧
      (∀ i ∈ starts, i < matrix.cols / crop_width) ∧
      (∀ c ∈ starts.map (fun i =>
          matrix.cropAt (matrix.cols % crop_width + i * crop_width) crop_width),
        c.rows = matrix.rows ∧ c.cols = crop_width) := by
  refine ⟨sampleAux n_samples (List.range (matrix.cols / crop_width)) rs, ?_, ?_, ?_, ?_, ?_⟩
  · unfold get_random_samples random_sample
    rw [if_neg (Nat.pos_iff_ne_zero.mp hw)]
    simp only [trimmed_div _ _ hw]
    have hpos : 0 < matrix.cols / crop_width := Nat.div_pos hcw hw
    rw [if_neg (Nat.pos_iff_ne_zero.mp hpos)]
    rw [if_neg (by rw [List.length_map, List.length_range]; omega)]
    rw [sampleAux_map]
  · exact sampleAux_length _ _ _ (by rw [List.length_range]; exact hn)
  · exact sampleAux_nodup _ _ _ (List.nodup_range _)
  · intro i hi
    have := mem_of_mem_sampleAux _ _ _ _ hi
    simpa using this
  · intro c hc
    obtain ⟨i, _, rfl⟩ := List.mem_map.mp hc
    exact ⟨rfl, rfl⟩

/-- Concrete matrix for the C5 witness: 2 frequency bins, 250 time
pixels whose entries record the column index. -/
def c5Mat : Mat := ⟨2, 250, fun _ j => (j : Int)⟩

/-- Witness for `get_random_samples_spec` at the concrete matrix
`c5Mat`, with 2 requested samples of width 125 and the all-zero draw
stream. -/
theorem get_random_samples_spec_witness :
    (0 < 125 ∧ 125 ≤ c5Mat.cols ∧ 2 ≤ c5Mat.cols / 125) ∧
      (∃ starts : List Nat,
        get_random_samples c5Mat 2 125 [0, 0] =
          some (starts.map (fun i =>
            c5Mat.cropAt (c5Mat.cols % 125 + i * 125) 125)) ∧
        starts.length = 2 ∧
        starts.Nodup ∧
        (∀ i ∈ starts, i < c5Mat.cols / 125) ∧
        (∀ c ∈ starts.map (fun i => c5Mat.cropAt (c5Mat.cols % 125 + i * 125) 125),
          c.rows = c5Mat.rows ∧ c.cols = 125)) :=
  ⟨⟨by decide, by decide, by decide⟩,
    get_random_samples_spec c5Mat 2 125 [0, 0] (by decide) (by decide) (by decide)⟩

/-- C6: requesting more samples than the number of available
non-overlapping segments makes `get_random_samples` fail; it never
returns a shorter list. -/
theorem get_random_samples_fails_when_too_many (matrix : Mat) (n_samples crop_width : Nat)
    (rs : List Nat) (hw : 0 < crop_width) (hn : matrix.cols / crop_width < n_samples) :
    get_random_samples matrix n_samples crop_width rs = none := by
  unfold get_random_samples
  rw [if_neg (Nat.pos_iff_ne_zero.mp hw)]
  simp only [trimmed_div _ _ hw]
  by_cases h0 : matrix.cols / crop_width = 0
  · rw [if_pos h0]
  · rw [if_neg h0]
    unfold random_sample
    rw [if_pos (by rw [List.length_map, List.length_range]; exact hn)]

/-- Concrete matrix for the C6 witness: 100 time pixels, fewer than one
segment of width 125. -/
def c6Mat : Mat := ⟨1, 100, fun _ _ => 0⟩

/-- Witness for `get_random_samples_fails_when_too_many` at `c6Mat`. -/
theorem get_random_samples_fails_witness :
    (0 < 125 ∧ c6Mat.cols / 125 < 1) ∧ get_random_samples c6Mat 1 125 [] = none :=
  ⟨⟨by decide, by decide⟩,
    get_random_samples_fails_when_too_many c6Mat 1 125 [] (by decide) (by decide)⟩

/-- Concrete matrix for C3: one participant, 250 time pixels whose
entries record the column index. -/
def c3Mat : Mat := ⟨1, 250, fun _ j => (j : Int)⟩

/-- C3: the crop selection of `get_random_samples` is driven by the
python `random` module, whose state is not fixed by the single
`np.random.seed(15)` call at module load; two runs with the same seed
and the same input matrix can return different crops, so the pipeline
output is not a function of the seed and the corpus. -/
theorem crop_sampling_not_determined_by_seed :
    ∃ rs1 rs2 : List Nat,
      get_random_samples c3Mat 1 125 rs1 ≠ get_random_samples c3Mat 1 125 rs2 := by
  refine ⟨[0], [1], ?_⟩
  intro h
  have e1 : get_random_samples c3Mat 1 125 [0] = some [c3Mat.cropAt 0 125] := rfl
  have e2 : get_random_samples c3Mat 1 125 [1] = some [c3Mat.cropAt 125 125] := rfl
  rw [e1, e2] at h
  have hl := Option.some.inj h
  injection hl with hh _
  have h3 := congrArg (fun m => m.entry 0 0) hh
  simp [c3Mat, Mat.cropAt] at h3

/-- Depressed-class matrix of the C4 counterexample: 250 time pixels. -/
def c4DepMat : Mat := ⟨513, 250, fun _ _ => 0⟩

/-- Normal-class matrix of the C4 counterexample: 500 time pixels, bound
to the same participant id as the depressed matrix. -/
def c4NormMat : Mat := ⟨513, 500, fun _ _ => 1⟩

def c4Dep : Dict := [(1, c4DepMat)]

def c4Norm : Dict := [(1, c4NormMat)]

/-- C4 counterexample: participant id 1 appears in both class
dictionaries, yet `determine_num_crops` is not rejected: it returns
`some 2`, namely `250 / 125` computed from the depressed entry that
silently replaced the normal entry of width 500 in the merge. -/
theorem determine_num_crops_accepts_colliding_ids :
    determine_num_crops c4Dep c4Norm 125 = some 2 ∧
      ¬ determine_num_crops c4Dep c4Norm 125 = none := by
  refine ⟨rfl, ?_⟩
  intro h
  rw [show determine_num_crops c4Dep c4Norm 125 = some 2 from rfl] at h
  exact Option.noConfusion h

/-- C4 (amended): a participant id occurring in both class dictionaries
is not rejected; the merge `{**normal_dict, **depressed_dict}` silently
maps the colliding id to the depressed-class matrix, and the call
succeeds. -/
theorem merge_overwrites_colliding_id (normal_dict depressed_dict : Dict) (crop_width : Nat)
    (hw : 0 < crop_width) (k : Nat) (vD : Mat)
    (hdep : List.lookup k depressed_dict = some vD) (hk : k ∈ dictKeys normal_dict) :
    List.lookup k (mergeDicts normal_dict depressed_dict) = some vD ∧
      ¬ determine_num_crops depressed_dict normal_dict crop_width = none := by
  constructor
  · unfold mergeDicts
    rw [List.lookup_append]
    rw [lookup_map_override depressed_dict k vD hdep normal_dict hk]
    rfl
  · cases hn : normal_dict with
    | nil => rw [hn] at hk; simp [dictKeys] at hk
    | cons q qs =>
      intro hcon
      unfold determine_num_crops at hcon
      rw [if_neg (Nat.pos_iff_ne_zero.mp hw)] at hcon
      simp only [hn, mergeDicts, List.map_cons, List.cons_append, shortestWidth] at hcon
      exact Option.noConfusion hcon

/-- Witness for `merge_overwrites_colliding_id` at the concrete
colliding dictionaries. -/
theorem merge_overwrites_colliding_id_witness :
    (0 < 125 ∧ List.lookup 1 c4Dep = some c4DepMat ∧ 1 ∈ dictKeys c4Norm) ∧
      (List.lookup 1 (mergeDicts c4Norm c4Dep) = some c4DepMat ∧
        ¬ determine_num_crops c4Dep c4Norm 125 = none) :=
  ⟨⟨by decide, rfl, by simp [dictKeys, c4Norm]⟩,
    merge_overwrites_colliding_id c4Norm c4Dep 125 (by decide) 1 c4DepMat rfl
      (by simp [dictKeys, c4Norm])⟩

/-- A filename, embedded as its list of characters; the python code
classifies files with startswith on one-character class prefixes. -/
abbrev Filename := List Char

/-- The persisted sample store: the listing of the npz directory, each
filename paired with the crop matrices its archive holds, in key
order. -/
abbrev Store := List (Filename × List Mat)

/-- Loading the npz archive of a filename of the listing: the arrays it
stores, in key order. -/
def loadFile (dir : Store) (f : Filename) : List Mat :=
  (List.lookup f dir).getD []

/-- The directory entries whose names carry the depressed-class prefix
D, in listing order. -/
def dep_files (dir : Store) : List Filename :=
  (dir.map (·.1)).filter (fun f => List.isPrefixOf ['D'] f)

/-- The directory entries whose names carry the normal-class prefix N,
in listing order. -/
def norm_files (dir : Store) : List Filename :=
  (dir.map (·.1)).filter (fun f => List.isPrefixOf ['N'] f)

/-- Python `np.random.choice(a, size, replace=False)` of the legacy
seeded generator: raises `ValueError` (here `none`) when the population
is empty or when `size` exceeds the population size, otherwise draws
`size` elements without replacement in the order driven by the numpy
stream `rs`. -/
def np_random_choice {α : Type} (a : List α) (size : Nat) (rs : List Nat) : Option (List α) :=
  if a.length = 0 then none
  else if a.length < size then none
  else some (sampleAux size a rs)

/-- Python slice `a[:-k]`: empty when `k = 0` (because `-0` is `0`),
otherwise the first `length - k` elements. -/
def pyDropLastSlice {α : Type} (a : List α) (k : Nat) : List α :=
  if k = 0 then [] else a.take (a.length - k)

/-- Python slice `a[-k:]`: the whole list when `k = 0`, otherwise the
last `k` elements. -/
def pyTakeLastSlice {α : Type} (a : List α) (k : Nat) : List α :=
  if k = 0 then a else a.drop (a.length - k)

/-- The participant-selection and partition phase of
`rand_samp_train_test_split`: list the D- and N-prefixed files, draw
`max_samples = min(len(dep_samps), len(norm_samps))` participants of
each class without replacement, and slice both selections with
`num_test = int(len(dep_select_samps) * 0.2)`, which equals
`len(dep_select_samps) / 5` in integer arithmetic for every feasible
participant count.  Returns
`(dep_train, norm_train, dep_test, norm_test)`. -/
def split_selection (dir : Store) (rs1 rs2 : List Nat) :
    Option (List Filename × List Filename × List Filename × List Filename) :=
  match np_random_choice (dep_files dir) (min (dep_files dir).length (norm_files dir).length) rs1,
      np_random_choice (norm_files dir) (min (dep_files dir).length (norm_files dir).length) rs2 with
  | some dep_select, some norm_select =>
    some (pyDropLastSlice dep_select (dep_select.length / 5),
      pyDropLastSlice norm_select (dep_select.length / 5),
      pyTakeLastSlice dep_select (dep_select.length / 5),
      pyTakeLastSlice norm_select (dep_select.length / 5))
  | _, _ => none

/-- Embedding of `rand_samp_train_test_split(npz_file_dir)`: after the
selection phase, the stored crops of the train files (depressed
selection first, then normal) are flattened into the train sample list,
labelled by ones for the first half and zeros for the second half, and
likewise for the test files. -/
def rand_samp_train_test_split (dir : Store) (rs1 rs2 : List Nat) :
    Option (List Mat × List Nat × List Mat × List Nat) :=
  match split_selection dir rs1 rs2 with
  | none => none
  | some (dep_train, norm_train, dep_test, norm_test) =>
    some (((dep_train ++ norm_train).map (loadFile dir)).flatten,
      List.replicate ((((dep_train ++ norm_train).map (loadFile dir)).flatten).length / 2) 1 ++
        List.replicate ((((dep_train ++ norm_train).map (loadFile dir)).flatten).length / 2) 0,
      ((dep_test ++ norm_test).map (loadFile dir)).flatten,
      List.replicate ((((dep_test ++ norm_test).map (loadFile dir)).flatten).length / 2) 1 ++
        List.replicate ((((dep_test ++ norm_test).map (loadFile dir)).flatten).length / 2) 0)

theorem np_random_choice_nil {α : Type} (size : Nat) (rs : List Nat) :
    np_random_choice ([] : List α) size rs = none := rfl

theorem np_random_choice_eq {α : Type} (a : List α) (size : Nat) (rs : List Nat)
    (h0 : a.length ≠ 0) (hs : size ≤ a.length) :
    np_random_choice a size rs = some (sampleAux size a rs) := by
  unfold np_random_choice
  rw [if_neg h0, if_neg (not_lt.mpr hs)]

theorem np_random_choice_sound {α : Type} (a : List α) (size : Nat) (rs : List Nat)
    (sel : List α) (h : np_random_choice a size rs = some sel) :
    sel = sampleAux size a rs := by
  unfold np_random_choice at h
  by_cases h0 : a.length = 0
  · rw [if_pos h0] at h
    exact Option.noConfusion h
  · rw [if_neg h0] at h
    by_cases h1 : a.length < size
    · rw [if_pos h1] at h
      exact Option.noConfusion h
    · rw [if_neg h1] at h
      exact (Option.some.inj h).symm

theorem split_selection_eq_of_choices (dir : Store) (rs1 rs2 : List Nat)
    (dsel nsel : List Filename)
    (hd : np_random_choice (dep_files dir)
        (min (dep_files dir).length (norm_files dir).length) rs1 = some dsel)
    (hn : np_random_choice (norm_files dir)
        (min (dep_files dir).length (norm_files dir).length) rs2 = some nsel) :
    split_selection dir rs1 rs2 = some
      (pyDropLastSlice dsel (dsel.length / 5),
        pyDropLastSlice nsel (dsel.length / 5),
        pyTakeLastSlice dsel (dsel.length / 5),
        pyTakeLastSlice nsel (dsel.length / 5)) := by
  unfold split_selection
  rw [hd, hn]

/-- C7: when one class has no persisted artifact, `max_samples` is 0 and
the numpy draw already fails on the empty population, so
`rand_samp_train_test_split` fails instead of returning empty
arrays. -/
theorem split_fails_on_empty_class (dir : Store) (rs1 rs2 : List Nat)
    (h : dep_files dir = [] ∨ norm_files dir = []) :
    rand_samp_train_test_split dir rs1 rs2 = none := by
  have hnone : split_selection dir rs1 rs2 = none := by
    rcases h with h | h
    · unfold split_selection
      rw [h, np_random_choice_nil]
    · unfold split_selection
      rw [h, np_random_choice_nil]
      cases np_random_choice (dep_files dir) (min (dep_files dir).length
        (List.length ([] : List Filename))) rs1 <;> rfl
  unfold rand_samp_train_test_split
  rw [hnone]

/-- The store of the C7 witness: a single normal-class file, no
depressed-class file. -/
def c7Dir : Store := [(['N', '1'], [⟨1, 125, fun _ _ => 0⟩])]

/-- Witness for `split_fails_on_empty_class` at `c7Dir`. -/
theorem split_fails_on_empty_class_witness :
    (dep_files c7Dir = [] ∨ norm_files c7Dir = []) ∧
      rand_samp_train_test_split c7Dir [] [] = none :=
  ⟨Or.inl rfl, split_fails_on_empty_class c7Dir [] [] (Or.inl rfl)⟩

/-- C8: whenever `rand_samp_train_test_split` returns, the train label
array and the test label array each hold as many ones (depressed) as
zeros (normal), by construction of the positional label halving. -/
theorem labels_balanced (dir : Store) (rs1 rs2 : List Nat)
    (ts : List Mat) (tl : List Nat) (vs : List Mat) (vl : List Nat)
    (h : rand_samp_train_test_split dir rs1 rs2 = some (ts, tl, vs, vl)) :
    tl.count 1 = tl.count 0 ∧ vl.count 1 = vl.count 0 := by
  unfold rand_samp_train_test_split at h
  cases hs : split_selection dir rs1 rs2 with
  | none =>
    rw [hs] at h
    exact Option.noConfusion h
  | some sel =>
    obtain ⟨dt, nt, dv, nv⟩ := sel
    rw [hs] at h
    simp only [Option.some.injEq, Prod.mk.injEq] at h
    obtain ⟨-, htl, -, hvl⟩ := h
    rw [← htl, ← hvl]
    constructor <;>
      simp [List.count_append, List.count_replicate]

/-- Matrix stored in the depressed-class file of the C8 witness
store. -/
def c8DepMat : Mat := ⟨1, 125, fun _ _ => 0⟩

/-- Matrix stored in the normal-class file of the C8 witness store. -/
def c8NormMat : Mat := ⟨1, 125, fun _ _ => 1⟩

def c8Dir : Store := [(['D', '1'], [c8DepMat]), (['N', '1'], [c8NormMat])]

/-- Witness for `labels_balanced` at `c8Dir`: one participant per class,
all crops land in the test split with labels `[1, 0]`. -/
theorem labels_balanced_witness :
    rand_samp_train_test_split c8Dir [] [] =
        some ([], [], [c8DepMat, c8NormMat], [1, 0]) ∧
      (([] : List Nat).count 1 = ([] : List Nat).count 0 ∧
        ([1, 0] : List Nat).count 1 = ([1, 0] : List Nat).count 0) :=
  ⟨rfl, labels_balanced c8Dir [] [] [] [] [c8DepMat, c8NormMat] [1, 0] rfl⟩

theorem pyDropLastSlice_zero {α : Type} (a : List α) : pyDropLastSlice a 0 = [] := rfl

theorem pyTakeLastSlice_zero {α : Type} (a : List α) : pyTakeLastSlice a 0 = a := rfl

theorem pyDropLastSlice_of_ne {α : Type} (a : List α) (k : Nat) (hk : k ≠ 0) :
    pyDropLastSlice a k = a.take (a.length - k) := by
  unfold pyDropLastSlice
  rw [if_neg hk]

theorem pyTakeLastSlice_of_ne {α : Type} (a : List α) (k : Nat) (hk : k ≠ 0) :
    pyTakeLastSlice a k = a.drop (a.length - k) := by
  unfold pyTakeLastSlice
  rw [if_neg hk]

theorem rand_samp_eq_of_split (dir : Store) (rs1 rs2 : List Nat)
    (dt nt dv nv : List Filename)
    (h : split_selection dir rs1 rs2 = some (dt, nt, dv, nv)) :
    rand_samp_train_test_split dir rs1 rs2 =
      some (((dt ++ nt).map (loadFile dir)).flatten,
        List.replicate ((((dt ++ nt).map (loadFile dir)).flatten).length / 2) 1 ++
          List.replicate ((((dt ++ nt).map (loadFile dir)).flatten).length / 2) 0,
        ((dv ++ nv).map (loadFile dir)).flatten,
        List.replicate ((((dv ++ nv).map (loadFile dir)).flatten).length / 2) 1 ++
          List.replicate ((((dv ++ nv).map (loadFile dir)).flatten).length / 2) 0) := by
  unfold rand_samp_train_test_split
  rw [h]

/-- C10: when both classes are non-empty and the smaller class has at
most 4 participants, `num_test = int(max_samples * 0.2)` is 0; the
python slice `[:-0]` is then empty, so the train partition is empty
(samples and labels alike), while the crops of all selected
participants of both classes land in the test partition. -/
theorem small_classes_put_everything_in_test (dir : Store) (rs1 rs2 : List Nat)
    (m : Nat) (hm : m = min (dep_files dir).length (norm_files dir).length)
    (h1 : 1 ≤ m) (h4 : m ≤ 4) :
    ∃ dsel nsel,
      np_random_choice (dep_files dir) m rs1 = some dsel ∧
      np_random_choice (norm_files dir) m rs2 = some nsel ∧
      dsel.length = m ∧ nsel.length = m ∧
      rand_samp_train_test_split dir rs1 rs2 =
        some ([], [], ((dsel ++ nsel).map (loadFile dir)).flatten,
          List.replicate ((((dsel ++ nsel).map (loadFile dir)).flatten).length / 2) 1 ++
            List.replicate ((((dsel ++ nsel).map (loadFile dir)).flatten).length / 2) 0) := by
  subst hm
  have hdlen : min (dep_files dir).length (norm_files dir).length ≤ (dep_files dir).length :=
    Nat.min_le_left _ _
  have hnlen : min (dep_files dir).length (norm_files dir).length ≤ (norm_files dir).length :=
    Nat.min_le_right _ _
  have hd := np_random_choice_eq (dep_files dir)
    (min (dep_files dir).length (norm_files dir).length) rs1 (by omega) hdlen
  have hn := np_random_choice_eq (norm_files dir)
    (min (dep_files dir).length (norm_files dir).length) rs2 (by omega) hnlen
  have hls := sampleAux_length (min (dep_files dir).length (norm_files dir).length)
    (dep_files dir) rs1 hdlen
  have hln := sampleAux_length (min (dep_files dir).length (norm_files dir).length)
    (norm_files dir) rs2 hnlen
  have hsplit := split_selection_eq_of_choices dir rs1 rs2 _ _ hd hn
  have hk : (sampleAux (min (dep_files dir).length (norm_files dir).length)
      (dep_files dir) rs1).length / 5 = 0 := by
    rw [hls]
    omega
  rw [hk] at hsplit
  simp only [pyDropLastSlice_zero, pyTakeLastSlice_zero] at hsplit
  refine ⟨_, _, hd, hn, hls, hln, ?_⟩
  rw [rand_samp_eq_of_split dir rs1 rs2 _ _ _ _ hsplit]
  simp

/-- Matrix of the depressed-class file of the C10 witness store. -/
def c10DepMat : Mat := ⟨1, 125, fun _ _ => 2⟩

/-- Matrix of the normal-class file of the C10 witness store. -/
def c10NormMat : Mat := ⟨1, 125, fun _ _ => 3⟩

def c10Dir : Store := [(['D', '2'], [c10DepMat]), (['N', '2'], [c10NormMat])]

/-- Witness for `small_classes_put_everything_in_test` at `c10Dir`. -/
theorem small_classes_put_everything_in_test_witness :
    ((1 : Nat) = min (dep_files c10Dir).length (norm_files c10Dir).length ∧
        1 ≤ 1 ∧ (1 : Nat) ≤ 4) ∧
      (∃ dsel nsel,
        np_random_choice (dep_files c10Dir) 1 [] = some dsel ∧
        np_random_choice (norm_files c10Dir) 1 [] = some nsel ∧
        dsel.length = 1 ∧ nsel.length = 1 ∧
        rand_samp_train_test_split c10Dir [] [] =
          some ([], [], ((dsel ++ nsel).map (loadFile c10Dir)).flatten,
            List.replicate ((((dsel ++ nsel).map (loadFile c10Dir)).flatten).length / 2) 1 ++
              List.replicate ((((dsel ++ nsel).map (loadFile c10Dir)).flatten).length / 2) 0)) :=
  ⟨⟨by decide, by decide, by decide⟩,
    small_classes_put_everything_in_test c10Dir [] [] 1 (by decide) (by decide) (by decide)⟩

/-- C1 (amended): when `num_test = max_samples / 5` is at least 1,
equivalently when `max_samples = min(len(dep_samps), len(norm_samps))`
is at least 5, each class draws `max_samples` participants without
replacement, the train partition holds all persisted crops of the first
`max_samples - num_test` selected participants of each class (depressed
before normal), and the test partition those of the remaining
`num_test` selected participants of each class. -/
theorem large_classes_partition (dir : Store) (rs1 rs2 : List Nat)
    (m : Nat) (hm : m = min (dep_files dir).length (norm_files dir).length)
    (h5 : 5 ≤ m) :
    ∃ dsel nsel,
      np_random_choice (dep_files dir) m rs1 = some dsel ∧
      np_random_choice (norm_files dir) m rs2 = some nsel ∧
      dsel.length = m ∧ nsel.length = m ∧ 1 ≤ m / 5 ∧
      rand_samp_train_test_split dir rs1 rs2 = some
        (((dsel.take (m - m / 5) ++ nsel.take (m - m / 5)).map (loadFile dir)).flatten,
          List.replicate ((((dsel.take (m - m / 5) ++ nsel.take (m - m / 5)).map
              (loadFile dir)).flatten).length / 2) 1 ++
            List.replicate ((((dsel.take (m - m / 5) ++ nsel.take (m - m / 5)).map
              (loadFile dir)).flatten).length / 2) 0,
          ((dsel.drop (m - m / 5) ++ nsel.drop (m - m / 5)).map (loadFile dir)).flatten,
          List.replicate ((((dsel.drop (m - m / 5) ++ nsel.drop (m - m / 5)).map
              (loadFile dir)).flatten).length / 2) 1 ++
            List.replicate ((((dsel.drop (m - m / 5) ++ nsel.drop (m - m / 5)).map
              (loadFile dir)).flatten).length / 2) 0) := by
  subst hm
  have hdlen : min (dep_files dir).length (norm_files dir).length ≤ (dep_files dir).length :=
    Nat.min_le_left _ _
  have hnlen : min (dep_files dir).length (norm_files dir).length ≤ (norm_files dir).length :=
    Nat.min_le_right _ _
  have hd := np_random_choice_eq (dep_files dir)
    (min (dep_files dir).length (norm_files dir).length) rs1 (by omega) hdlen
  have hn := np_random_choice_eq (norm_files dir)
    (min (dep_files dir).length (norm_files dir).length) rs2 (by omega) hnlen
  have hls := sampleAux_length (min (dep_files dir).length (norm_files dir).length)
    (dep_files dir) rs1 hdlen
  have hln := sampleAux_length (min (dep_files dir).length (norm_files dir).length)
    (norm_files dir) rs2 hnlen
  have hge : 1 ≤ min (dep_files dir).length (norm_files dir).length / 5 :=
    (Nat.one_le_div_iff (by omega)).mpr h5
  have hk0 : min (dep_files dir).length (norm_files dir).length / 5 ≠ 0 := by omega
  have hsplit := split_selection_eq_of_choices dir rs1 rs2 _ _ hd hn
  rw [hls] at hsplit
  rw [pyDropLastSlice_of_ne _ _ hk0, pyDropLastSlice_of_ne _ _ hk0,
    pyTakeLastSlice_of_ne _ _ hk0, pyTakeLastSlice_of_ne _ _ hk0, hls, hln] at hsplit
  refine ⟨_, _, hd, hn, hls, hln, hge, ?_⟩
  unfold rand_samp_train_test_split
  rw [hsplit]

/-- Matrix of the depressed-class file of the C1 counterexample
store. -/
def c1DepMat : Mat := ⟨1, 125, fun _ _ => 4⟩

/-- Matrix of the normal-class file of the C1 counterexample store. -/
def c1NormMat : Mat := ⟨1, 125, fun _ _ => 5⟩

def c1Dir : Store := [(['D', '3'], [c1DepMat]), (['N', '3'], [c1NormMat])]

/-- The partition behaviour asserted by claim C1 at one input: whenever
the call returns, the train samples are the crops of the first
`max_samples - num_test` selected participants of each class and the
test samples those of the remaining `num_test` selected participants,
with `num_test = max_samples / 5`. -/
def claimedPartition (dir : Store) (rs1 rs2 : List Nat) : Prop :=
  ∀ ts tl vs vl, rand_samp_train_test_split dir rs1 rs2 = some (ts, tl, vs, vl) →
    ∃ dsel nsel,
      np_random_choice (dep_files dir)
          (min (dep_files dir).length (norm_files dir).length) rs1 = some dsel ∧
      np_random_choice (norm_files dir)
          (min (dep_files dir).length (norm_files dir).length) rs2 = some nsel ∧
      ts = ((dsel.take (dsel.length - dsel.length / 5) ++
          nsel.take (nsel.length - nsel.length / 5)).map (loadFile dir)).flatten ∧
      vs = ((dsel.drop (dsel.length - dsel.length / 5) ++
          nsel.drop (nsel.length - nsel.length / 5)).map (loadFile dir)).flatten

/-- C1 counterexample: with one persisted participant per class,
`max_samples = 1` and `num_test = 0`; the claim then places the single
selected participant of each class in the train partition, but the
python slices leave the train partition empty and put both participants
in the test partition. -/
theorem one_participant_classes_refute_claimed_partition :
    ¬ claimedPartition c1Dir [] [] := by
  intro h
  obtain ⟨dsel, nsel, h1, h2, h3, -⟩ := h [] [] [c1DepMat, c1NormMat] [1, 0] rfl
  have e1 : np_random_choice (dep_files c1Dir)
      (min (dep_files c1Dir).length (norm_files c1Dir).length) [] =
        some [['D', '3']] := rfl
  have e2 : np_random_choice (norm_files c1Dir)
      (min (dep_files c1Dir).length (norm_files c1Dir).length) [] =
        some [['N', '3']] := rfl
  rw [e1] at h1
  rw [e2] at h2
  obtain rfl : dsel = [['D', '3']] := (Option.some.inj h1).symm
  obtain rfl : nsel = [['N', '3']] := (Option.some.inj h2).symm
  have h4 : ([] : List Mat) = [c1DepMat, c1NormMat] := h3
  exact List.noConfusion h4

/-- Matrix shared by all files of the C1 witness store. -/
def c1wMat : Mat := ⟨1, 125, fun _ _ => 6⟩

def c1WitDir : Store :=
  [(['D', 'a'], [c1wMat]), (['D', 'b'], [c1wMat]), (['D', 'c'], [c1wMat]),
    (['D', 'd'], [c1wMat]), (['D', 'e'], [c1wMat]),
    (['N', 'a'], [c1wMat]), (['N', 'b'], [c1wMat]), (['N', 'c'], [c1wMat]),
    (['N', 'd'], [c1wMat]), (['N', 'e'], [c1wMat])]

/-- Witness for `large_classes_partition` at `c1WitDir`, a store with
five participants per class, so `max_samples = 5` and `num_test = 1`. -/
theorem large_classes_partition_witness :
    ((5 : Nat) = min (dep_files c1WitDir).length (norm_files c1WitDir).length ∧
        (5 : Nat) ≤ 5) ∧
      (∃ dsel nsel,
        np_random_choice (dep_files c1WitDir) 5 [] = some dsel ∧
        np_random_choice (norm_files c1WitDir) 5 [] = some nsel ∧
        dsel.length = 5 ∧ nsel.length = 5 ∧ 1 ≤ 5 / 5 ∧
        rand_samp_train_test_split c1WitDir [] [] = some
          (((dsel.take (5 - 5 / 5) ++ nsel.take (5 - 5 / 5)).map (loadFile c1WitDir)).flatten,
            List.replicate ((((dsel.take (5 - 5 / 5) ++ nsel.take (5 - 5 / 5)).map
                (loadFile c1WitDir)).flatten).length / 2) 1 ++
              List.replicate ((((dsel.take (5 - 5 / 5) ++ nsel.take (5 - 5 / 5)).map
                (loadFile c1WitDir)).flatten).length / 2) 0,
            ((dsel.drop (5 - 5 / 5) ++ nsel.drop (5 - 5 / 5)).map (loadFile c1WitDir)).flatten,
            List.replicate ((((dsel.drop (5 - 5 / 5) ++ nsel.drop (5 - 5 / 5)).map
                (loadFile c1WitDir)).flatten).length / 2) 1 ++
              List.replicate ((((dsel.drop (5 - 5 / 5) ++ nsel.drop (5 - 5 / 5)).map
                (loadFile c1WitDir)).flatten).length / 2) 0)) :=
  ⟨⟨by decide, by decide⟩,
    large_classes_partition c1WitDir [] [] 5 (by decide) (by decide)⟩

theorem not_prefixD_and_prefixN (f : Filename) (hD : List.isPrefixOf ['D'] f = true)
    (hN : List.isPrefixOf ['N'] f = true) : False := by
  cases f with
  | nil => simp [List.isPrefixOf] at hD
  | cons c cs =>
    simp only [List.isPrefixOf, Bool.and_eq_true, beq_iff_eq] at hD hN
    rw [← hD.1] at hN
    exact absurd hN.1 (by decide)

theorem pySlices_disjoint {α : Type} (l : List α) (k : Nat) (hnd : l.Nodup) :
    List.Disjoint (pyDropLastSlice l k) (pyTakeLastSlice l k) := by
  by_cases hk : k = 0
  · subst hk
    intro a ha
    simp [pyDropLastSlice] at ha
  · rw [pyDropLastSlice_of_ne _ _ hk, pyTakeLastSlice_of_ne _ _ hk]
    have h2 : (l.take (l.length - k) ++ l.drop (l.length - k)).Nodup := by
      rw [List.take_append_drop]
      exact hnd
    exact (List.nodup_append.mp h2).2.2

theorem pyDropLastSlice_subset {α : Type} (a : List α) (k : Nat) :
    ∀ x ∈ pyDropLastSlice a k, x ∈ a := by
  intro x hx
  unfold pyDropLastSlice at hx
  by_cases hk : k = 0
  · rw [if_pos hk] at hx
    exact absurd hx (List.not_mem_nil x)
  · rw [if_neg hk] at hx
    exact List.take_subset _ _ hx

theorem pyTakeLastSlice_subset {α : Type} (a : List α) (k : Nat) :
    ∀ x ∈ pyTakeLastSlice a k, x ∈ a := by
  intro x hx
  unfold pyTakeLastSlice at hx
  by_cases hk : k = 0
  · rw [if_pos hk] at hx
    exact hx
  · rw [if_neg hk] at hx
    exact List.drop_subset _ _ hx

/-- C9: when the directory listing has no duplicate names, the files
feeding the train arrays and the files feeding the test arrays of
`rand_samp_train_test_split` are disjoint: within a class the two
partitions are complementary slices of one without-replacement draw,
and across classes the D and N prefixes cannot agree, so no participant
contributes crops to both the train and the test sample array. -/
theorem train_test_participants_disjoint (dir : Store) (rs1 rs2 : List Nat)
    (hnodup : (dir.map (·.1)).Nodup)
    (dt nt dv nv : List Filename)
    (h : split_selection dir rs1 rs2 = some (dt, nt, dv, nv)) :
    List.Disjoint (dt ++ nt) (dv ++ nv) ∧
      rand_samp_train_test_split dir rs1 rs2 =
        some (((dt ++ nt).map (loadFile dir)).flatten,
          List.replicate ((((dt ++ nt).map (loadFile dir)).flatten).length / 2) 1 ++
            List.replicate ((((dt ++ nt).map (loadFile dir)).flatten).length / 2) 0,
          ((dv ++ nv).map (loadFile dir)).flatten,
          List.replicate ((((dv ++ nv).map (loadFile dir)).flatten).length / 2) 1 ++
            List.replicate ((((dv ++ nv).map (loadFile dir)).flatten).length / 2) 0) := by
  refine ⟨?_, rand_samp_eq_of_split dir rs1 rs2 dt nt dv nv h⟩
  unfold split_selection at h
  cases hd : np_random_choice (dep_files dir)
      (min (dep_files dir).length (norm_files dir).length) rs1 with
  | none =>
    rw [hd] at h
    exact Option.noConfusion h
  | some dsel =>
    cases hn2 : np_random_choice (norm_files dir)
        (min (dep_files dir).length (norm_files dir).length) rs2 with
    | none =>
      rw [hd, hn2] at h
      exact Option.noConfusion h
    | some nsel =>
      rw [hd, hn2] at h
      simp only [Option.some.injEq, Prod.mk.injEq] at h
      obtain ⟨hdt, hnt, hdv, hnv⟩ := h
      have hdsel : dsel = sampleAux (min (dep_files dir).length (norm_files dir).length)
          (dep_files dir) rs1 := np_random_choice_sound _ _ _ _ hd
      have hnsel : nsel = sampleAux (min (dep_files dir).length (norm_files dir).length)
          (norm_files dir) rs2 := np_random_choice_sound _ _ _ _ hn2
      have hdfn : (dep_files dir).Nodup := List.Nodup.filter _ hnodup
      have hnfn : (norm_files dir).Nodup := List.Nodup.filter _ hnodup
      have hdnd : dsel.Nodup := by
        rw [hdsel]
        exact sampleAux_nodup _ _ _ hdfn
      have hnnd : nsel.Nodup := by
        rw [hnsel]
        exact sampleAux_nodup _ _ _ hnfn
      have hdpre : ∀ x ∈ dsel, List.isPrefixOf ['D'] x = true := by
        intro x hx
        rw [hdsel] at hx
        have hx2 := mem_of_mem_sampleAux _ _ _ _ hx
        unfold dep_files at hx2
        exact (List.mem_filter.mp hx2).2
      have hnpre : ∀ x ∈ nsel, List.isPrefixOf ['N'] x = true := by
        intro x hx
        rw [hnsel] at hx
        have hx2 := mem_of_mem_sampleAux _ _ _ _ hx
        unfold norm_files at hx2
        exact (List.mem_filter.mp hx2).2
      intro a ha hb
      rw [← hdt, ← hnt] at ha
      rw [← hdv, ← hnv] at hb
      rw [List.mem_append] at ha hb
      rcases ha with ha | ha <;> rcases hb with hb | hb
      · exact pySlices_disjoint dsel _ hdnd ha hb
      · exact not_prefixD_and_prefixN a
          (hdpre a (pyDropLastSlice_subset _ _ a ha))
          (hnpre a (pyTakeLastSlice_subset _ _ a hb))
      · exact not_prefixD_and_prefixN a
          (hdpre a (pyTakeLastSlice_subset _ _ a hb))
          (hnpre a (pyDropLastSlice_subset _ _ a ha))
      · exact pySlices_disjoint nsel _ hnnd ha hb

/-- Matrix of the depressed-class file of the C9 witness store. -/
def c9DepMat : Mat := ⟨1, 125, fun _ _ => 7⟩

/-- Matrix of the normal-class file of the C9 witness store. -/
def c9NormMat : Mat := ⟨1, 125, fun _ _ => 8⟩

def c9Dir : Store := [(['D', '4'], [c9DepMat]), (['N', '4'], [c9NormMat])]

/-- Witness for `train_test_participants_disjoint` at `c9Dir`. -/
theorem train_test_participants_disjoint_witness :
    ((c9Dir.map (·.1)).Nodup ∧
        split_selection c9Dir [] [] = some ([], [], [['D', '4']], [['N', '4']])) ∧
      (List.Disjoint (([] : List Filename) ++ []) ([['D', '4']] ++ [['N', '4']]) ∧
        rand_samp_train_test_split c9Dir [] [] =
          some (((([] : List Filename) ++ []).map (loadFile c9Dir)).flatten,
            List.replicate ((((([] : List Filename) ++ []).map
                (loadFile c9Dir)).flatten).length / 2) 1 ++
              List.replicate ((((([] : List Filename) ++ []).map
                (loadFile c9Dir)).flatten).length / 2) 0,
            (([['D', '4']] ++ [['N', '4']]).map (loadFile c9Dir)).flatten,
            List.replicate (((([['D', '4']] ++ [['N', '4']]).map
                (loadFile c9Dir)).flatten).length / 2) 1 ++
              List.replicate (((([['D', '4']] ++ [['N', '4']]).map
                (loadFile c9Dir)).flatten).length / 2) 0)) :=
  ⟨⟨by decide, rfl⟩,
    train_test_participants_disjoint c9Dir [] [] (by decide) [] [] [['D', '4']] [['N', '4']] rfl⟩
